import Mathlib

/-!
Verification of `fastapi-crudrouter` (SQLAlchemy backend) against its
natural-language specification.

Shallow embedding of:
  - `src/fastapi_crudrouter/core/_utils.py`
      (`schema_factory`, `create_query_validation_exception`, `pagination_factory`)
  - `src/fastapi_crudrouter/core/sqlalchemy.py`
      (`SQLAlchemyCRUDRouter._get_all`, `_get_one`, `_create`, `_update`,
       `_delete_all`, `_delete_one`)

Conventions of the embedding:
  - Python integers are `Int`; `Optional[int]` is `Option Int`.
  - JSON-serializable Python values used in error payloads are `Json`.
  - `fastapi.HTTPException(status, detail)` is the structure `HTTPException`.
  - a raised exception is `Except.error`; a returned value is `Except.ok`.
  - the SQLAlchemy session is a pair of record lists: `committed` (durable
    rows, what a fresh session of a later request would read) and `session`
    (the state visible through the current request's session, including
    staged, not yet committed changes).  `commit` copies `session` into
    `committed`; `rollback` copies `committed` back into `session`.
  - whether `commit` succeeds, fails with `IntegrityError`, or fails with
    any other storage error is an oracle input (`CommitOutcome`), since the
    storage engine is an external collaborator.
  - the synchronous and asynchronous branches of each route body are
    syntactically identical up to `await` and are embedded once; the one
    route where the two branches genuinely differ (`_delete_all`, whose
    synchronous branch is missing an `await`) is embedded twice.
-/

/-- JSON values, used for `HTTPException` detail payloads. -/
inductive Json where
  | str (s : String)
  | int (n : Int)
  | arr (xs : List Json)
  | obj (fields : List (String × Json))
  | null
deriving Repr

/-- `fastapi.HTTPException(status_code, detail)`. -/
structure HTTPException where
  statusCode : Nat
  detail : Json
deriving Repr

/-- Column values stored in a (non primary key) record field. -/
inductive Value where
  | int (n : Int)
  | str (s : String)
deriving Repr, DecidableEq

/-- The validated pagination object `{"skip": skip, "limit": limit}`
returned by the `pagination` dependency. -/
structure Pagination where
  skip : Int
  limit : Option Int
deriving Repr, DecidableEq

/-- `_utils.create_query_validation_exception(field, msg)`:
`HTTPException(422, detail={"detail": [{"loc": ["query", field], "msg": msg,
"type": "type_error.integer"}]})`. -/
def create_query_validation_exception (field : String) (msg : String) : HTTPException :=
  { statusCode := 422,
    detail := Json.obj [("detail", Json.arr [Json.obj
      [("loc", Json.arr [Json.str "query", Json.str field]),
       ("msg", Json.str msg),
       ("type", Json.str "type_error.integer")]])] }

/-- The inner `pagination(skip, limit)` dependency produced by
`_utils.pagination_factory(max_limit)`.  Python's
`elif max_limit and max_limit < limit` is falsy both when `max_limit` is
`None` and when it is `0` (integer truthiness), which the nested match
reproduces. -/
def pagination (max_limit : Option Int) (skip : Int) (limit : Option Int) :
    Except HTTPException Pagination :=
  if skip < 0 then
    Except.error (create_query_validation_exception "skip"
      "skip query parameter must be greater or equal to zero")
  else
    match limit with
    | some l =>
      if l ≤ 0 then
        Except.error (create_query_validation_exception "limit"
          "limit query parameter must be greater than zero")
      else
        match max_limit with
        | some m =>
          if m ≠ 0 ∧ m < l then
            Except.error (create_query_validation_exception "limit"
              ("limit query parameter must be less than " ++ toString m))
          else Except.ok ⟨skip, some l⟩
        | none => Except.ok ⟨skip, some l⟩
    | none => Except.ok ⟨skip, none⟩

/-- The pagination result cites field `f`: it is an error built by
`create_query_validation_exception` for `f` (with some message). -/
def failsCiting (r : Except HTTPException Pagination) (f : String) : Prop :=
  ∃ msg, r = Except.error (create_query_validation_exception f msg)

/-- C1 (amended): the three pagination checks apply in order
`skip < 0` citing `skip`, then `limit ≤ 0` citing `limit`, then
`limit > max_limit` citing `limit` — the last only when the configured
`max_limit` is nonzero (Python truthiness treats `max_limit = 0` as
unconfigured) — and otherwise validation succeeds with `{skip, limit}`. -/
theorem pagination_validation_order (m : Option Int) (s : Int) (l : Option Int) :
    (s < 0 → failsCiting (pagination m s l) "skip") ∧
    (0 ≤ s → ∀ x, l = some x → x ≤ 0 → failsCiting (pagination m s l) "limit") ∧
    (0 ≤ s → ∀ x mv, l = some x → 0 < x → m = some mv → mv ≠ 0 → mv < x →
      failsCiting (pagination m s l) "limit") ∧
    (0 ≤ s → (∀ x, l = some x → 0 < x) →
      (∀ x mv, l = some x → m = some mv → mv ≠ 0 → x ≤ mv) →
      pagination m s l = Except.ok ⟨s, l⟩) := by
  refine ⟨?_, ?_, ?_, ?_⟩
  · intro hs
    exact ⟨"skip query parameter must be greater or equal to zero",
      by simp [pagination, if_pos hs]⟩
  · intro hs x hx hx0
    subst hx
    refine ⟨"limit query parameter must be greater than zero", ?_⟩
    simp [pagination, if_neg (by omega : ¬ s < 0), if_pos hx0]
  · intro hs x mv hx hx0 hm hmv hlt
    subst hx; subst hm
    refine ⟨"limit query parameter must be less than " ++ toString mv, ?_⟩
    simp [pagination, if_neg (by omega : ¬ s < 0), if_neg (by omega : ¬ x ≤ 0),
      if_pos (And.intro hmv hlt)]
  · intro hs hpos hceil
    match l with
    | none => simp [pagination, if_neg (by omega : ¬ s < 0)]
    | some x =>
      have hx : 0 < x := hpos x rfl
      match m with
      | none =>
        simp [pagination, if_neg (by omega : ¬ s < 0), if_neg (by omega : ¬ x ≤ 0)]
      | some mv =>
        have : ¬ (mv ≠ 0 ∧ mv < x) := by
          rintro ⟨h0, hlt⟩
          exact absurd (hceil x mv rfl rfl h0) (by omega)
        simp [pagination, if_neg (by omega : ¬ s < 0), if_neg (by omega : ¬ x ≤ 0),
          if_neg this]

/-- C1 witness: with `max_limit = 5`, input `skip = -1` fails citing `skip`. -/
theorem pagination_validation_order_witness :
    failsCiting (pagination (some 5) (-1) none) "skip" :=
  (pagination_validation_order (some 5) (-1) none).1 (by decide)

/-- C1 counterexample to the claim as stated: with a configured ceiling
`max_limit = 0` and `limit = 1 > 0 = max_limit`, validation succeeds instead
of failing with an error citing `limit`. -/
theorem pagination_max_limit_zero_counterexample :
    pagination (some 0) 0 (some 1) = Except.ok ⟨0, some 1⟩ ∧
    ¬ failsCiting (pagination (some 0) 0 (some 1)) "limit" := by
  have h : pagination (some 0) 0 (some 1) = Except.ok ⟨0, some 1⟩ := by
    simp [pagination]
  refine ⟨h, ?_⟩
  rintro ⟨msg, hmsg⟩
  rw [h] at hmsg
  exact Except.noConfusion hmsg

/-- C2: every pagination validation failure is an `HTTPException` with
status 422 whose detail is exactly
`{"detail": [{"loc": ["query", f], "msg": msg, "type": "type_error.integer"}]}`
for the offending field `f`, which is `"skip"` or `"limit"`. -/
theorem pagination_error_shape (m : Option Int) (s : Int) (l : Option Int)
    (e : HTTPException) (h : pagination m s l = Except.error e) :
    ∃ f msg, (f = "skip" ∨ f = "limit") ∧
      e = { statusCode := 422,
            detail := Json.obj [("detail", Json.arr [Json.obj
              [("loc", Json.arr [Json.str "query", Json.str f]),
               ("msg", Json.str msg),
               ("type", Json.str "type_error.integer")]])] } := by
  unfold pagination at h
  split at h
  · exact ⟨"skip", _, Or.inl rfl, (Except.error.inj h).symm⟩
  · split at h
    · split at h
      · exact ⟨"limit", _, Or.inr rfl, (Except.error.inj h).symm⟩
      · split at h
        · split at h
          · exact ⟨"limit", _, Or.inr rfl, (Except.error.inj h).symm⟩
          · exact Except.noConfusion h
        · exact Except.noConfusion h
    · exact Except.noConfusion h

/-- C2 witness: the failure at `skip = -1` has the exact 422 shape. -/
theorem pagination_error_shape_witness :
    ∃ f msg, (f = "skip" ∨ f = "limit") ∧
      create_query_validation_exception "skip"
          "skip query parameter must be greater or equal to zero" =
        { statusCode := 422,
          detail := Json.obj [("detail", Json.arr [Json.obj
            [("loc", Json.arr [Json.str "query", Json.str f]),
             ("msg", Json.str msg),
             ("type", Json.str "type_error.integer")]])] } :=
  pagination_error_shape none (-1) none _ (by simp [pagination, create_query_validation_exception])

/-- Python type annotations carried by pydantic fields. -/
inductive PyType where
  | tInt
  | tStr
  | tOther (typeName : String)
deriving Repr, DecidableEq

/-- A pydantic v2 `FieldInfo`: its `.annotation` (here `annot`), its default
value (`none` when there is none), and whether the field is required.
`(annotation, ...)` in pydantic means required with no default. -/
structure FieldInfo where
  annot : PyType
  default : Option Value
  required : Bool
deriving Repr, DecidableEq

/-- A pydantic model class: its `__name__` and its `model_fields` mapping. -/
structure PySchema where
  pyName : String
  model_fields : List (String × FieldInfo)
deriving Repr, DecidableEq

/-- `_utils.schema_factory(schema_cls, pk_field_name, name)`: builds
`create_model(schema_cls.__name__ + name, **fields)` where `fields` keeps
every `model_fields` entry except `pk_field_name`, mapped to
`(field.annotation, ...)`, i.e. required with no default. -/
def schema_factory (schema_cls : PySchema) (pk_field_name : String)
    (name : String) : PySchema :=
  { pyName := PySchema.pyName schema_cls ++ name,
    model_fields :=
      ((PySchema.model_fields schema_cls).filter
          (fun p => !(p.1 == pk_field_name))).map
        (fun p => (p.1, ⟨FieldInfo.annot p.2, none, true⟩)) }

/-- C5: for a schema containing the primary-key field, the derived create
schema's field set is exactly the original field set minus the primary-key
field, and every remaining field is required with no default. -/
theorem schema_factory_create_fields (schema_cls : PySchema) (pk : String)
    (nm : String)
    (_hpk : pk ∈ (PySchema.model_fields schema_cls).map Prod.fst) :
    (∀ f, f ∈ (PySchema.model_fields (schema_factory schema_cls pk nm)).map Prod.fst ↔
      (f ∈ (PySchema.model_fields schema_cls).map Prod.fst ∧ ¬ f = pk)) ∧
    (∀ p ∈ PySchema.model_fields (schema_factory schema_cls pk nm),
      FieldInfo.required p.2 = true ∧ FieldInfo.default p.2 = none) := by
  constructor
  · intro f
    simp only [schema_factory, List.map_map, List.mem_map, List.mem_filter,
      Function.comp]
    constructor
    · rintro ⟨p, ⟨hp, hne⟩, hf⟩
      refine ⟨⟨p, hp, hf⟩, ?_⟩
      intro hfpk
      rw [hf] at hne
      simp [hfpk] at hne
    · rintro ⟨⟨p, hp, hf⟩, hne⟩
      refine ⟨p, ⟨hp, ?_⟩, hf⟩
      rw [hf]
      simpa using hne
  · intro p hp
    simp only [schema_factory, List.mem_map, List.mem_filter] at hp
    obtain ⟨q, _, hq⟩ := hp
    rw [show p = (q.1, ⟨FieldInfo.annot q.2, none, true⟩) from hq.symm]
    exact ⟨rfl, rfl⟩

/-- C5 witness: for the schema `{id: int, name: str}` with pk `"id"`, the
create schema has exactly the field `name`, required with no default. -/
theorem schema_factory_create_fields_witness :
    (∀ f, f ∈ (PySchema.model_fields (schema_factory
        ⟨"Potato", [("id", ⟨PyType.tInt, none, true⟩),
                    ("name", ⟨PyType.tStr, none, true⟩)]⟩ "id" "Create")).map Prod.fst ↔
      (f ∈ (PySchema.model_fields
        (⟨"Potato", [("id", ⟨PyType.tInt, none, true⟩),
                     ("name", ⟨PyType.tStr, none, true⟩)]⟩ : PySchema)).map Prod.fst ∧
        ¬ f = "id")) ∧
    (∀ p ∈ PySchema.model_fields (schema_factory
        ⟨"Potato", [("id", ⟨PyType.tInt, none, true⟩),
                    ("name", ⟨PyType.tStr, none, true⟩)]⟩ "id" "Create"),
      FieldInfo.required p.2 = true ∧ FieldInfo.default p.2 = none) :=
  schema_factory_create_fields
    ⟨"Potato", [("id", ⟨PyType.tInt, none, true⟩), ("name", ⟨PyType.tStr, none, true⟩)]⟩
    "id" "Create" (by simp)

/-- A stored/ORM record (`db_model` instance): its primary-key value and its
remaining column attributes.  The spec fixes a single primary key per
resource, inferred as integer-typed by default. -/
structure Record where
  pk : Int
  attrs : List (String × Value)
deriving Repr, DecidableEq

/-- Storage state seen by one request: `committed` rows (what fresh sessions
of later requests read) and the current request's `session` view (staged
changes included).  A request starts with `session = committed`. -/
structure DB where
  committed : List Record
  session : List Record
deriving Repr, DecidableEq

/-- Outcome of a `commit` call, reported by the storage engine:
success, `sqlalchemy.exc.IntegrityError` (uniqueness violation), or any
other storage exception. -/
inductive CommitOutcome where
  | ok
  | integrityError
  | otherError
deriving Repr, DecidableEq

/-- An error escaping a route handler: a `fastapi.HTTPException`, or an
uncaught storage exception propagating as-is. -/
inductive RouteError where
  | http (e : HTTPException)
  | storage
deriving Repr

/-- Modelled from the spec: the shared `NOT_FOUND` constant imported from
the core module (`from . import ... NOT_FOUND`), whose definition is not
among the given sources.  The spec maps a missing primary key to 404:
"`NotFound` (primary key absent) → 404, terminal for that request". -/
def NOT_FOUND : HTTPException :=
  { statusCode := 404, detail := Json.str "Item not found" }

/-- Modelled from the spec: `CRUDGenerator._raise`, called by `_update` on
`IntegrityError`; its definition is not among the given sources.  The spec
maps it to "`Conflict` (uniqueness violation on create/update) → 422 with
message \x22Key already exists\x22". -/
def raiseIntegrityError : HTTPException :=
  { statusCode := 422, detail := Json.str "Key already exists" }

/-- `SQLAlchemyCRUDRouter._get_one`: look the record up by primary key in
the session (`db.query(model).get(item_id)`, or the async
`select ... where pk == item_id` + `scalar_one_or_none`); return it if found
(ORM instances are truthy), else `raise NOT_FOUND`. -/
def get_one (db : DB) (item_id : Int) : Except RouteError Record :=
  match (DB.session db).find? (fun x => x.pk == item_id) with
  | some r => Except.ok r
  | none => Except.error (RouteError.http NOT_FOUND)

/-- `ORDER BY pk ASC` of the generated query: the session rows sorted
ascending by primary key. -/
def orderByPk (rs : List Record) : List Record :=
  rs.insertionSort (fun a b => a.pk ≤ b.pk)

/-- `SQLAlchemyCRUDRouter._get_all`: `SELECT` ordered ascending by the
primary key, `OFFSET skip`, `LIMIT limit` (no limit when `limit` is
`None`).  Read-only: the state is returned unchanged. -/
def get_all (db : DB) (skip : Int) (limit : Option Int) : List Record × DB :=
  let sorted := orderByPk (DB.session db)
  let windowed :=
    match limit with
    | none => sorted.drop skip.toNat
    | some n => (sorted.drop skip.toNat).take n.toNat
  (windowed, db)

/-- `SQLAlchemyCRUDRouter._create`: `db.add` the new record built from the
create-schema payload, `commit`, `refresh`, return it; on `IntegrityError`,
`rollback` then `raise HTTPException(422, "Key already exists")`; any other
commit failure propagates uncaught (no rollback).  The record built by
`self.db_model(**model.model_dump())` is taken as input, the storage engine
(an external collaborator) being the one to fill generated fields. -/
def create (db : DB) (r : Record) (oc : CommitOutcome) :
    Except RouteError Record × DB :=
  let db1 : DB := { db with session := DB.session db ++ [r] }
  match oc with
  | CommitOutcome.ok =>
    (Except.ok r, { db1 with committed := DB.session db1 })
  | CommitOutcome.integrityError =>
    (Except.error (RouteError.http
        { statusCode := 422, detail := Json.str "Key already exists" }),
      { db1 with session := DB.committed db1 })
  | CommitOutcome.otherError => (Except.error RouteError.storage, db1)

/-- `attrs.any (key present)`: models `hasattr(db_model, key)` restricted to
non-primary-key column attributes (the update loop below only ever tests
keys different from the primary-key name, which `model_dump(exclude=...)`
already removed). -/
def hasKey (attrs : List (String × Value)) (k : String) : Bool :=
  attrs.any (fun p => p.1 == k)

/-- `setattr(db_model, key, value)` on a column attribute: replace the value
stored under `k`, keeping every other attribute. -/
def setattrA (attrs : List (String × Value)) (k : String) (v : Value) :
    List (String × Value) :=
  attrs.map (fun p => if p.1 == k then (p.1, v) else p)

/-- The `_update` field loop: for each payload item in order, set the
attribute if the record has it (`if hasattr(db_model, key): setattr(...)`),
else silently skip it. -/
def applyFields (r : Record) (fs : List (String × Value)) : Record :=
  fs.foldl
    (fun acc p =>
      if hasKey acc.attrs p.1 then { acc with attrs := setattrA acc.attrs p.1 p.2 }
      else acc)
    r

/-- `model.model_dump(exclude={self._pk})` followed by the field loop:
payload entries named like the primary key are excluded up front. -/
def applyUpdate (pkName : String) (r : Record) (payload : List (String × Value)) :
    Record :=
  applyFields r (payload.filter (fun p => !(p.1 == pkName)))

/-- `getattr(db_model, k)` on column attributes: the value stored under `k`,
if any. -/
def getattr (r : Record) (k : String) : Option Value :=
  (r.attrs.find? (fun p => p.1 == k)).map (fun p => p.2)

/-- `SQLAlchemyCRUDRouter._update`: `_get_one` first (its `NOT_FOUND`
propagates unchanged), then the field loop on the fetched record (mutating
the session's row in place), then `commit` + `refresh` and return; on
`IntegrityError`, `rollback` then `self._raise(e)` (modelled:
`raiseIntegrityError`); any other commit failure propagates uncaught.
Primary keys are unique in the store, so replacing every session row whose
pk matches models the in-place mutation of the single fetched object. -/
def update (pkName : String) (db : DB) (item_id : Int)
    (payload : List (String × Value)) (oc : CommitOutcome) :
    Except RouteError Record × DB :=
  match get_one db item_id with
  | Except.error e => (Except.error e, db)
  | Except.ok r0 =>
    let r2 := applyUpdate pkName r0 payload
    let db1 : DB :=
      { db with session := (DB.session db).map (fun x => if x.pk == item_id then r2 else x) }
    match oc with
    | CommitOutcome.ok =>
      (Except.ok r2, { db1 with committed := DB.session db1 })
    | CommitOutcome.integrityError =>
      (Except.error (RouteError.http raiseIntegrityError),
        { db1 with session := DB.committed db1 })
    | CommitOutcome.otherError => (Except.error RouteError.storage, db1)

/-- `SQLAlchemyCRUDRouter._delete_one`: `_get_one` first (its `NOT_FOUND`
propagates unchanged), then `db.delete(db_model)` and `commit`, returning
the deleted record's last state.  There is no `try/except` here: any commit
failure (`IntegrityError` included) propagates uncaught and nothing is
rolled back. -/
def delete_one (db : DB) (item_id : Int) (oc : CommitOutcome) :
    Except RouteError Record × DB :=
  match get_one db item_id with
  | Except.error e => (Except.error e, db)
  | Except.ok r0 =>
    let db1 : DB :=
      { db with session := (DB.session db).filter (fun x => !(x.pk == item_id)) }
    match oc with
    | CommitOutcome.ok => (Except.ok r0, { db1 with committed := DB.session db1 })
    | CommitOutcome.integrityError => (Except.error RouteError.storage, db1)
    | CommitOutcome.otherError => (Except.error RouteError.storage, db1)

/-- What a route body hands back to the HTTP substrate: a plain list of
records, or — when an `async def` is called without `await` — the still
pending coroutine that would have produced that list. -/
inductive PyReturn where
  | list (rs : List Record)
  | coroutine (rs : List Record)
deriving Repr, DecidableEq

/-- `SQLAlchemyCRUDRouter._delete_all`, asynchronous branch: delete every
row (`db.execute(table.delete())`), `commit`, then
`return await self._get_all()(db=db, pagination={"skip": 0, "limit": None})`. -/
def delete_all_async (db : DB) (oc : CommitOutcome) :
    Except RouteError PyReturn × DB :=
  let db1 : DB := { db with session := [] }
  match oc with
  | CommitOutcome.ok =>
    let db2 : DB := { db1 with committed := DB.session db1 }
    (Except.ok (PyReturn.list (get_all db2 0 none).1), db2)
  | _ => (Except.error RouteError.storage, db1)

/-- `SQLAlchemyCRUDRouter._delete_all`, synchronous branch: delete every row
(`db.query(model).delete()`), `commit`, then
`return self._get_all()(db=db, pagination={"skip": 0, "limit": None})` —
WITHOUT `await`, although `_get_all`'s `route` is `async def`: the branch
returns the un-awaited coroutine object rather than the list it would
produce. -/
def delete_all_sync (db : DB) (oc : CommitOutcome) :
    Except RouteError PyReturn × DB :=
  let db1 : DB := { db with session := [] }
  match oc with
  | CommitOutcome.ok =>
    let db2 : DB := { db1 with committed := DB.session db1 }
    (Except.ok (PyReturn.coroutine (get_all db2 0 none).1), db2)
  | _ => (Except.error RouteError.storage, db1)

/-- The ordering used by the generated `ORDER BY`: ascending primary key. -/
def pkLe (a b : Record) : Prop := Record.pk a ≤ Record.pk b

instance : DecidableRel pkLe :=
  fun a b => inferInstanceAs (Decidable (Record.pk a ≤ Record.pk b))

instance : IsTotal Record pkLe :=
  ⟨fun a b => Int.le_total (Record.pk a) (Record.pk b)⟩

instance : IsTrans Record pkLe :=
  ⟨fun _ _ _ h1 h2 => le_trans h1 h2⟩

theorem orderByPk_eq (rs : List Record) : orderByPk rs = rs.insertionSort pkLe := rfl

/-- C6: the list endpoint returns records pairwise ordered ascending by
primary key; at most `limit` of them when a limit is given; in every case
the exact window of the pk-sorted store with the first `skip` records
omitted — all remaining records when no limit is given, and at most `limit`
of them (`take`) when one is — the sorted store being a permutation of the
stored records; and the storage state is unchanged. -/
theorem get_all_window_sorted (db : DB) (s : Int) (l : Option Int) :
    (∀ (i j : Nat) (ri rj : Record), i < j → ((get_all db s l).1)[i]? = some ri →
      ((get_all db s l).1)[j]? = some rj → Record.pk ri ≤ Record.pk rj) ∧
    (∀ n, l = some n → ((get_all db s l).1).length ≤ n.toNat) ∧
    (l = none → (get_all db s l).1 = (orderByPk (DB.session db)).drop s.toNat) ∧
    (∀ n, l = some n → (get_all db s l).1
      = ((orderByPk (DB.session db)).drop s.toNat).take n.toNat) ∧
    ((get_all db s l).1).Sublist (orderByPk (DB.session db)) ∧
    (orderByPk (DB.session db)).Perm (DB.session db) ∧
    (get_all db s l).2 = db := by
  have hsub : ((get_all db s l).1).Sublist (orderByPk (DB.session db)) := by
    match l with
    | none => exact List.drop_sublist _ _
    | some n => exact (List.take_sublist _ _).trans (List.drop_sublist _ _)
  have hsorted : List.Sorted pkLe (orderByPk (DB.session db)) :=
    List.sorted_insertionSort pkLe (DB.session db)
  have hpw : ((get_all db s l).1).Pairwise pkLe := List.Pairwise.sublist hsub hsorted
  refine ⟨?_, ?_, ?_, ?_, hsub, List.perm_insertionSort pkLe (DB.session db), rfl⟩
  · intro i j ri rj hij hi hj
    obtain ⟨hilt, hieq⟩ := List.getElem?_eq_some.mp hi
    obtain ⟨hjlt, hjeq⟩ := List.getElem?_eq_some.mp hj
    have := List.pairwise_iff_get.mp hpw ⟨i, hilt⟩ ⟨j, hjlt⟩ hij
    rw [List.get_eq_getElem, List.get_eq_getElem, hieq, hjeq] at this
    exact this
  · intro n hn
    subst hn
    exact List.length_take_le _ _
  · intro hn
    subst hn
    rfl
  · intro n hn
    subst hn
    rfl

/-- C6 witness: on a store holding pks `[2, 1]`, the unlimited list returns
pk 1 before pk 2; with `limit = 1` at most one record comes back; and with
`skip = 1, limit = 1` the result is exactly the sorted store with its first
record dropped and one taken. -/
theorem get_all_window_sorted_witness :
    Record.pk (⟨1, []⟩ : Record) ≤ Record.pk (⟨2, []⟩ : Record) ∧
    ((get_all ⟨[⟨2, []⟩, ⟨1, []⟩], [⟨2, []⟩, ⟨1, []⟩]⟩ 0 (some 1)).1).length ≤ 1 ∧
    (get_all ⟨[⟨2, []⟩, ⟨1, []⟩], [⟨2, []⟩, ⟨1, []⟩]⟩ 1 (some 1)).1
      = ((orderByPk (DB.session (⟨[⟨2, []⟩, ⟨1, []⟩], [⟨2, []⟩, ⟨1, []⟩]⟩ : DB))).drop
          (1 : Int).toNat).take (1 : Int).toNat :=
  ⟨(get_all_window_sorted ⟨[⟨2, []⟩, ⟨1, []⟩], [⟨2, []⟩, ⟨1, []⟩]⟩ 0 none).1
      0 1 ⟨1, []⟩ ⟨2, []⟩ (by decide) rfl rfl,
    (get_all_window_sorted ⟨[⟨2, []⟩, ⟨1, []⟩], [⟨2, []⟩, ⟨1, []⟩]⟩ 0 (some 1)).2.1 1 rfl,
    (get_all_window_sorted ⟨[⟨2, []⟩, ⟨1, []⟩], [⟨2, []⟩, ⟨1, []⟩]⟩ 1 (some 1)).2.2.2.1 1 rfl⟩

theorem hasKey_setattrA (attrs : List (String × Value)) (k : String) (v : Value)
    (k2 : String) : hasKey (setattrA attrs k v) k2 = hasKey attrs k2 := by
  induction attrs with
  | nil => rfl
  | cons p t ih =>
    simp only [setattrA, List.map_cons, hasKey, List.any_cons] at ih ⊢
    by_cases h : p.1 == k
    · simp only [if_pos h]
      rw [ih]
    · simp only [if_neg h]
      rw [ih]

theorem applyFields_cons (r : Record) (p : String × Value) (t : List (String × Value)) :
    applyFields r (p :: t) =
      applyFields
        (if hasKey r.attrs p.1 = true then { r with attrs := setattrA r.attrs p.1 p.2 }
         else r) t := rfl

theorem setattrA_cons (p : String × Value) (t : List (String × Value))
    (k : String) (v : Value) :
    setattrA (p :: t) k v =
      (if (p.1 == k) = true then (p.1, v) else p) :: setattrA t k v := rfl

theorem getattr_setattrA_self (attrs : List (String × Value)) (k : String)
    (v : Value) (h : hasKey attrs k = true) :
    ((setattrA attrs k v).find? (fun p => p.1 == k)).map (fun p => p.2) = some v := by
  induction attrs with
  | nil => simp [hasKey] at h
  | cons p t ih =>
    rw [setattrA_cons]
    by_cases hp : (p.1 == k) = true
    · rw [if_pos hp]
      rw [List.find?_cons_of_pos (a := (p.1, v)) (setattrA t k v) hp]
      rfl
    · rw [if_neg hp]
      rw [List.find?_cons_of_neg (a := p) (setattrA t k v) hp]
      have h2 : hasKey t k = true := by
        simp only [hasKey, List.any_cons, hp, Bool.false_or] at h
        exact h
      exact ih h2

theorem getattr_setattrA_ne (attrs : List (String × Value)) (k : String)
    (v : Value) (k2 : String) (h : ¬ k2 = k) :
    (setattrA attrs k v).find? (fun p => p.1 == k2) = attrs.find? (fun p => p.1 == k2) := by
  induction attrs with
  | nil => rfl
  | cons p t ih =>
    rw [setattrA_cons]
    by_cases hp : (p.1 == k) = true
    · have hpk : p.1 = k := by simpa using hp
      have hne2 : ¬ ((p.1 == k2) = true) := by
        simp only [hpk, beq_iff_eq]
        intro hk
        exact h hk.symm
      rw [if_pos hp]
      rw [List.find?_cons_of_neg (a := (p.1, v)) (setattrA t k v) hne2]
      rw [List.find?_cons_of_neg (a := p) t hne2]
      exact ih
    · rw [if_neg hp]
      by_cases hq : (p.1 == k2) = true
      · rw [List.find?_cons_of_pos (a := p) (setattrA t k v) hq]
        rw [List.find?_cons_of_pos (a := p) t hq]
      · rw [List.find?_cons_of_neg (a := p) (setattrA t k v) hq]
        rw [List.find?_cons_of_neg (a := p) t hq]
        exact ih

theorem applyFields_pk (fs : List (String × Value)) (r : Record) :
    Record.pk (applyFields r fs) = Record.pk r := by
  induction fs generalizing r with
  | nil => rfl
  | cons p t ih =>
    rw [applyFields_cons]
    by_cases h : hasKey r.attrs p.1 = true
    · rw [if_pos h]
      exact ih { r with attrs := setattrA r.attrs p.1 p.2 }
    · rw [if_neg h]
      exact ih r

theorem hasKey_applyFields (fs : List (String × Value)) (r : Record) (k : String) :
    hasKey (applyFields r fs).attrs k = hasKey r.attrs k := by
  induction fs generalizing r with
  | nil => rfl
  | cons p t ih =>
    rw [applyFields_cons]
    by_cases h : hasKey r.attrs p.1 = true
    · rw [if_pos h]
      rw [ih { r with attrs := setattrA r.attrs p.1 p.2 }]
      exact hasKey_setattrA r.attrs p.1 p.2 k
    · rw [if_neg h]
      exact ih r

/-- Attributes not named by any loop entry keep their value (no `Nodup`
assumption needed). -/
theorem getattr_applyFields_of_find?_none (fs : List (String × Value)) (r : Record)
    (k : String) (hfind : fs.find? (fun p => p.1 == k) = none) :
    getattr (applyFields r fs) k = getattr r k := by
  induction fs generalizing r with
  | nil => rfl
  | cons p t ih =>
    have hp : ¬ ((p.1 == k) = true) := by
      intro hp
      rw [List.find?_cons_of_pos (a := p) t hp] at hfind
      exact Option.noConfusion hfind
    have hfind2 : t.find? (fun q => q.1 == k) = none := by
      rwa [List.find?_cons_of_neg (a := p) t hp] at hfind
    have hne : ¬ k = p.1 := by
      intro hk
      exact hp (by simp [hk])
    rw [applyFields_cons]
    by_cases hg : hasKey r.attrs p.1 = true
    · rw [if_pos hg]
      rw [ih { r with attrs := setattrA r.attrs p.1 p.2 } hfind2]
      simp only [getattr]
      rw [getattr_setattrA_ne r.attrs p.1 p.2 k hne]
    · rw [if_neg hg]
      exact ih r hfind2

/-- An attribute the record does not have is never created by the loop:
its lookup stays as on the original record (no `Nodup` assumption needed). -/
theorem getattr_applyFields_of_not_hasKey (fs : List (String × Value)) (r : Record)
    (k : String) (h : hasKey r.attrs k = false) :
    getattr (applyFields r fs) k = getattr r k := by
  induction fs generalizing r with
  | nil => rfl
  | cons p t ih =>
    rw [applyFields_cons]
    by_cases hg : hasKey r.attrs p.1 = true
    · have hne : ¬ k = p.1 := by
        intro hk
        rw [hk] at h
        rw [h] at hg
        exact Bool.noConfusion hg
      rw [if_pos hg]
      have h2 : hasKey (setattrA r.attrs p.1 p.2) k = false := by
        rw [hasKey_setattrA r.attrs p.1 p.2 k]
        exact h
      rw [ih { r with attrs := setattrA r.attrs p.1 p.2 } h2]
      simp only [getattr]
      rw [getattr_setattrA_ne r.attrs p.1 p.2 k hne]
    · rw [if_neg hg]
      exact ih r h

/-- When the loop entries have pairwise distinct keys and entry `q` names
attribute `k`, the loop sets `k` to `q.2` if the record has that attribute
and leaves it untouched otherwise. -/
theorem getattr_applyFields_of_find?_some (fs : List (String × Value)) (r : Record)
    (k : String) (q : String × Value) (hnd : (fs.map Prod.fst).Nodup)
    (hfind : fs.find? (fun p => p.1 == k) = some q) :
    getattr (applyFields r fs) k =
      if hasKey r.attrs k = true then some q.2 else getattr r k := by
  induction fs generalizing r with
  | nil => exact Option.noConfusion hfind
  | cons p t ih =>
    have hnd2 : (t.map Prod.fst).Nodup := hnd.of_cons
    by_cases hp : (p.1 == k) = true
    · have hpk : p.1 = k := by simpa using hp
      have hq : q = p := by
        rw [List.find?_cons_of_pos (a := p) t hp] at hfind
        exact (Option.some.inj hfind).symm
      subst hq
      have hnone : t.find? (fun q2 => q2.1 == k) = none := by
        apply List.find?_eq_none.mpr
        intro q2 hq2 hbq
        have hq2k : q2.1 = k := by simpa using hbq
        have hmem : q.1 ∈ t.map Prod.fst := by
          rw [hpk, ← hq2k]
          exact List.mem_map_of_mem Prod.fst hq2
        exact (List.nodup_cons.mp hnd).1 hmem
      rw [applyFields_cons]
      by_cases hg : hasKey r.attrs q.1 = true
      · rw [if_pos hg]
        rw [getattr_applyFields_of_find?_none t _ k hnone]
        have hgk : hasKey r.attrs k = true := hpk ▸ hg
        rw [if_pos hgk]
        simp only [getattr]
        exact hpk ▸ getattr_setattrA_self r.attrs q.1 q.2 hg
      · rw [if_neg hg]
        rw [getattr_applyFields_of_find?_none t r k hnone]
        have hgk : ¬ hasKey r.attrs k = true := by
          rw [← hpk]
          exact hg
        rw [if_neg hgk]
    · have hfind2 : t.find? (fun q2 => q2.1 == k) = some q := by
        rwa [List.find?_cons_of_neg (a := p) t hp] at hfind
      have hne : ¬ k = p.1 := by
        intro hk
        exact hp (by simp [hk])
      rw [applyFields_cons]
      by_cases hg : hasKey r.attrs p.1 = true
      · rw [if_pos hg]
        rw [ih { r with attrs := setattrA r.attrs p.1 p.2 } hnd2 hfind2]
        have hhk : hasKey (Record.attrs { r with attrs := setattrA r.attrs p.1 p.2 }) k
            = hasKey r.attrs k := hasKey_setattrA r.attrs p.1 p.2 k
        have hga : getattr { r with attrs := setattrA r.attrs p.1 p.2 } k = getattr r k := by
          simp only [getattr]
          rw [getattr_setattrA_ne r.attrs p.1 p.2 k hne]
        rw [hhk, hga]
      · rw [if_neg hg]
        exact ih r hnd2 hfind2

/-- A list of pairs with pairwise distinct keys finds exactly the member
pair under its key. -/
theorem find?_eq_of_mem_nodup (l : List (String × Value)) (k : String) (v : Value)
    (hnd : (l.map Prod.fst).Nodup) (hm : (k, v) ∈ l) :
    l.find? (fun p => p.1 == k) = some (k, v) := by
  induction l with
  | nil => cases hm
  | cons p t ih =>
    rcases List.mem_cons.mp hm with hh | ht
    · subst hh
      exact List.find?_cons_of_pos (a := (k, v)) t (by simp)
    · have hk : k ∈ t.map Prod.fst := List.mem_map_of_mem Prod.fst ht
      have hpne : ¬ ((p.1 == k) = true) := by
        intro hb
        have hbk : p.1 = k := by simpa using hb
        exact (List.nodup_cons.mp hnd).1 (hbk ▸ hk)
      rw [List.find?_cons_of_neg (a := p) t hpne]
      exact ih hnd.of_cons ht

/-- C7: update first performs get-one, propagating its NotFound error (and
state) unchanged; on an existing record it applies exactly the payload
fields that exist on the record, silently ignores payload fields absent on
the record without erroring, leaves every other attribute unchanged, and
never touches the primary key. -/
theorem update_ignores_unknown_fields (pkName : String) (db : DB) (id : Int)
    (payload : List (String × Value)) (oc : CommitOutcome)
    (hnd : (payload.map Prod.fst).Nodup) :
    (∀ e, get_one db id = Except.error e →
      update pkName db id payload oc = (Except.error e, db)) ∧
    (∀ r0, get_one db id = Except.ok r0 → oc = CommitOutcome.ok →
      ∃ r2, (update pkName db id payload oc).1 = Except.ok r2 ∧
        (∀ k, hasKey (Record.attrs r0) k = false → getattr r2 k = getattr r0 k) ∧
        (∀ k, ¬ k ∈ payload.map Prod.fst → getattr r2 k = getattr r0 k) ∧
        (∀ k v, (k, v) ∈ payload → ¬ k = pkName → hasKey (Record.attrs r0) k = true →
          getattr r2 k = some v) ∧
        Record.pk r2 = Record.pk r0) := by
  have hndf : ((payload.filter (fun p => !(p.1 == pkName))).map Prod.fst).Nodup :=
    hnd.sublist ((List.filter_sublist _).map Prod.fst)
  constructor
  · intro e he
    simp only [update, he]
  · intro r0 h0 hoc
    subst hoc
    refine ⟨applyFields r0 (payload.filter (fun p => !(p.1 == pkName))),
      by simp only [update, h0, applyUpdate], ?_, ?_, ?_, applyFields_pk _ r0⟩
    · intro k hk
      exact getattr_applyFields_of_not_hasKey _ r0 k hk
    · intro k hk
      apply getattr_applyFields_of_find?_none
      apply List.find?_eq_none.mpr
      intro q hq hbq
      have hq2 : q ∈ payload := (List.mem_filter.mp hq).1
      have hqk : q.1 = k := by simpa using hbq
      exact hk (hqk ▸ List.mem_map_of_mem Prod.fst hq2)
    · intro k v hm hkpk hkr
      have hmf : (k, v) ∈ payload.filter (fun p => !(p.1 == pkName)) :=
        List.mem_filter.mpr ⟨hm, by simp [hkpk]⟩
      have hfind := find?_eq_of_mem_nodup _ k v hndf hmf
      rw [getattr_applyFields_of_find?_some _ r0 k (k, v) hndf hfind]
      rw [if_pos hkr]

/-- C7 witness: updating pk 1 with payload `{id: 9, name: "b", bogus: 7}`
succeeds; `bogus` is ignored, `name` is applied, `age` and the pk are
unchanged. -/
theorem update_ignores_unknown_fields_witness :
    ∃ r2, (update "id" ⟨[⟨1, [("name", Value.str "a"), ("age", Value.int 3)]⟩],
        [⟨1, [("name", Value.str "a"), ("age", Value.int 3)]⟩]⟩ 1
        [("id", Value.int 9), ("name", Value.str "b"), ("bogus", Value.int 7)]
        CommitOutcome.ok).1 = Except.ok r2 ∧
      (∀ k, hasKey (Record.attrs (⟨1, [("name", Value.str "a"), ("age", Value.int 3)]⟩ : Record)) k = false →
        getattr r2 k = getattr (⟨1, [("name", Value.str "a"), ("age", Value.int 3)]⟩ : Record) k) ∧
      (∀ k, ¬ k ∈ ([("id", Value.int 9), ("name", Value.str "b"),
          ("bogus", Value.int 7)] : List (String × Value)).map Prod.fst →
        getattr r2 k = getattr (⟨1, [("name", Value.str "a"), ("age", Value.int 3)]⟩ : Record) k) ∧
      (∀ k v, (k, v) ∈ ([("id", Value.int 9), ("name", Value.str "b"),
          ("bogus", Value.int 7)] : List (String × Value)) → ¬ k = "id" →
        hasKey (Record.attrs (⟨1, [("name", Value.str "a"), ("age", Value.int 3)]⟩ : Record)) k = true →
        getattr r2 k = some v) ∧
      Record.pk r2 = Record.pk (⟨1, [("name", Value.str "a"), ("age", Value.int 3)]⟩ : Record) :=
  (update_ignores_unknown_fields "id"
      ⟨[⟨1, [("name", Value.str "a"), ("age", Value.int 3)]⟩],
        [⟨1, [("name", Value.str "a"), ("age", Value.int 3)]⟩]⟩ 1
      [("id", Value.int 9), ("name", Value.str "b"), ("bogus", Value.int 7)]
      CommitOutcome.ok (by decide)).2
    ⟨1, [("name", Value.str "a"), ("age", Value.int 3)]⟩ rfl rfl

/-- C10: an update on an existing record never modifies the primary-key
field — even a payload carrying the pk field leaves every stored record's
primary key as it was — so only non-key attributes can differ afterwards. -/
theorem update_preserves_pk (pkName : String) (db : DB) (id : Int)
    (payload : List (String × Value)) (oc : CommitOutcome) (r0 : Record)
    (h0 : get_one db id = Except.ok r0) :
    (∀ r2, (update pkName db id payload oc).1 = Except.ok r2 →
      Record.pk r2 = Record.pk r0) ∧
    (oc = CommitOutcome.ok →
      (DB.session ((update pkName db id payload oc).2)).map Record.pk
        = (DB.session db).map Record.pk) := by
  have hf : (DB.session db).find? (fun x => x.pk == id) = some r0 := by
    unfold get_one at h0
    cases hfind : (DB.session db).find? (fun x => x.pk == id) with
    | some r =>
      simp only [hfind] at h0
      exact congrArg some (Except.ok.inj h0)
    | none =>
      simp only [hfind] at h0
      exact Except.noConfusion h0
  have hr0 : Record.pk r0 = id := by
    have := List.find?_some hf
    simpa using this
  constructor
  · intro r2 h2
    simp only [update, h0] at h2
    cases oc with
    | ok =>
      rw [← Except.ok.inj h2]
      exact applyFields_pk _ r0
    | integrityError => exact Except.noConfusion h2
    | otherError => exact Except.noConfusion h2
  · intro hoc
    subst hoc
    simp only [update, h0]
    rw [List.map_map]
    apply List.map_congr_left
    intro x hx
    simp only [Function.comp]
    by_cases hxid : (x.pk == id) = true
    · rw [if_pos hxid]
      have hx2 : Record.pk x = id := by simpa using hxid
      rw [show applyUpdate pkName r0 payload
          = applyFields r0 (payload.filter (fun p => !(p.1 == pkName))) from rfl]
      rw [applyFields_pk, hr0, hx2]
    · rw [if_neg hxid]

/-- C10 witness: updating the record with pk 1 by a payload that sets
`id := 9` leaves the primary key 1 and the stored pk list unchanged. -/
theorem update_preserves_pk_witness :
    (∀ r2, (update "id" ⟨[⟨1, [("name", Value.str "a")]⟩], [⟨1, [("name", Value.str "a")]⟩]⟩ 1
        [("id", Value.int 9)] CommitOutcome.ok).1 = Except.ok r2 →
      Record.pk r2 = Record.pk (⟨1, [("name", Value.str "a")]⟩ : Record)) ∧
    (CommitOutcome.ok = CommitOutcome.ok →
      (DB.session ((update "id" ⟨[⟨1, [("name", Value.str "a")]⟩], [⟨1, [("name", Value.str "a")]⟩]⟩ 1
          [("id", Value.int 9)] CommitOutcome.ok).2)).map Record.pk
        = (DB.session (⟨[⟨1, [("name", Value.str "a")]⟩], [⟨1, [("name", Value.str "a")]⟩]⟩ : DB)).map Record.pk) :=
  update_preserves_pk "id"
    ⟨[⟨1, [("name", Value.str "a")]⟩], [⟨1, [("name", Value.str "a")]⟩]⟩ 1
    [("id", Value.int 9)] CommitOutcome.ok ⟨1, [("name", Value.str "a")]⟩ rfl

/-- C9: delete-one on an id with no stored record fails with the 404
NotFound error and leaves the state unchanged; on an existing id (with the
commit succeeding) it returns the removed record's last-known state, the
committed store equals the session with that record removed, and a
subsequent get-one for the same id fails with NotFound. -/
theorem delete_one_spec (db : DB) (id : Int) (oc : CommitOutcome) :
    (get_one db id = Except.error (RouteError.http NOT_FOUND) →
      delete_one db id oc = (Except.error (RouteError.http NOT_FOUND), db)) ∧
    HTTPException.statusCode NOT_FOUND = 404 ∧
    (∀ r0, get_one db id = Except.ok r0 →
      (delete_one db id CommitOutcome.ok).1 = Except.ok r0 ∧
      DB.session ((delete_one db id CommitOutcome.ok).2)
        = (DB.session db).filter (fun x => !(x.pk == id)) ∧
      DB.committed ((delete_one db id CommitOutcome.ok).2)
        = DB.session ((delete_one db id CommitOutcome.ok).2) ∧
      get_one ((delete_one db id CommitOutcome.ok).2) id
        = Except.error (RouteError.http NOT_FOUND)) := by
  refine ⟨?_, rfl, ?_⟩
  · intro he
    simp only [delete_one, he]
  · intro r0 h0
    refine ⟨by simp only [delete_one, h0], by simp only [delete_one, h0],
      by simp only [delete_one, h0], ?_⟩
    have hnone : (List.filter (fun x => !(x.pk == id)) (DB.session db)).find?
        (fun x => x.pk == id) = none := by
      apply List.find?_eq_none.mpr
      intro x hx hbx
      have hfx := (List.mem_filter.mp hx).2
      rw [hbx] at hfx
      simp at hfx
    simp only [delete_one, h0]
    simp only [get_one]
    rw [hnone]

/-- C9 witness: on a store `{pk 1}`, deleting pk 2 yields NotFound with the
state untouched, and deleting pk 1 returns the record, commits the removal,
and makes a subsequent get-one for pk 1 fail with NotFound. -/
theorem delete_one_spec_witness :
    (delete_one ⟨[⟨1, []⟩], [⟨1, []⟩]⟩ 2 CommitOutcome.ok
      = (Except.error (RouteError.http NOT_FOUND), ⟨[⟨1, []⟩], [⟨1, []⟩]⟩)) ∧
    ((delete_one ⟨[⟨1, []⟩], [⟨1, []⟩]⟩ 1 CommitOutcome.ok).1 = Except.ok ⟨1, []⟩ ∧
      DB.session ((delete_one ⟨[⟨1, []⟩], [⟨1, []⟩]⟩ 1 CommitOutcome.ok).2)
        = (DB.session (⟨[⟨1, []⟩], [⟨1, []⟩]⟩ : DB)).filter (fun x => !(x.pk == 1)) ∧
      DB.committed ((delete_one ⟨[⟨1, []⟩], [⟨1, []⟩]⟩ 1 CommitOutcome.ok).2)
        = DB.session ((delete_one ⟨[⟨1, []⟩], [⟨1, []⟩]⟩ 1 CommitOutcome.ok).2) ∧
      get_one ((delete_one ⟨[⟨1, []⟩], [⟨1, []⟩]⟩ 1 CommitOutcome.ok).2) 1
        = Except.error (RouteError.http NOT_FOUND)) :=
  ⟨(delete_one_spec ⟨[⟨1, []⟩], [⟨1, []⟩]⟩ 2 CommitOutcome.ok).1 rfl,
    (delete_one_spec ⟨[⟨1, []⟩], [⟨1, []⟩]⟩ 1 CommitOutcome.ok).2.2 ⟨1, []⟩ rfl⟩

/-- C8: evaluation at a one-record store.  Both `_delete_all` branches
remove every row and commit, and every later list on the emptied store is
empty; but the synchronous branch returns the un-awaited coroutine object
produced by calling `_get_all`'s `async def route` without `await`, not the
empty list the asynchronous branch returns. -/
theorem delete_all_sync_missing_await :
    delete_all_sync ⟨[⟨1, [("name", Value.str "a")]⟩], [⟨1, [("name", Value.str "a")]⟩]⟩
        CommitOutcome.ok
      = (Except.ok (PyReturn.coroutine []), ⟨[], []⟩) ∧
    delete_all_async ⟨[⟨1, [("name", Value.str "a")]⟩], [⟨1, [("name", Value.str "a")]⟩]⟩
        CommitOutcome.ok
      = (Except.ok (PyReturn.list []), ⟨[], []⟩) ∧
    PyReturn.coroutine [] ≠ PyReturn.list [] ∧
    (∀ (s : Int) (l : Option Int), (get_all ⟨[], []⟩ s l).1 = []) := by
  refine ⟨rfl, rfl, by decide, ?_⟩
  intro s l
  cases l <;> simp [get_all, orderByPk]

/-- C3 (amended): for create and update a commit failing with a uniqueness
violation is rolled back (session restored to the committed rows) before
the Conflict error is surfaced; no other commit failure — none in
delete-one, and a non-uniqueness failure in create/update — triggers a
rollback, but no failed commit ever changes the committed rows, so no
partially applied mutation is visible to reads of later requests. -/
theorem write_commit_failure_handling (db : DB) (r : Record) (pkName : String)
    (id : Int) (payload : List (String × Value)) (oc : CommitOutcome) :
    ((create db r CommitOutcome.integrityError).1
        = Except.error (RouteError.http
            { statusCode := 422, detail := Json.str "Key already exists" }) ∧
      DB.session ((create db r CommitOutcome.integrityError).2) = DB.committed db ∧
      DB.committed ((create db r CommitOutcome.integrityError).2) = DB.committed db) ∧
    (∀ r0, get_one db id = Except.ok r0 →
      (update pkName db id payload CommitOutcome.integrityError).1
          = Except.error (RouteError.http raiseIntegrityError) ∧
      DB.session ((update pkName db id payload CommitOutcome.integrityError).2)
          = DB.committed db ∧
      DB.committed ((update pkName db id payload CommitOutcome.integrityError).2)
          = DB.committed db) ∧
    (¬ oc = CommitOutcome.ok →
      DB.committed ((create db r oc).2) = DB.committed db ∧
      DB.committed ((update pkName db id payload oc).2) = DB.committed db ∧
      DB.committed ((delete_one db id oc).2) = DB.committed db) := by
  refine ⟨⟨rfl, rfl, rfl⟩, ?_, ?_⟩
  · intro r0 h0
    exact ⟨by simp only [update, h0], by simp only [update, h0], by simp only [update, h0]⟩
  · intro hoc
    refine ⟨?_, ?_, ?_⟩
    · cases oc with
      | ok => exact absurd rfl hoc
      | integrityError => rfl
      | otherError => rfl
    · cases hg : get_one db id with
      | error e =>
        simp only [update, hg]
      | ok r0 =>
        cases oc with
        | ok => exact absurd rfl hoc
        | integrityError => simp only [update, hg]
        | otherError => simp only [update, hg]
    · cases hg : get_one db id with
      | error e =>
        simp only [delete_one, hg]
      | ok r0 =>
        cases oc with
        | ok => exact absurd rfl hoc
        | integrityError => simp only [delete_one, hg]
        | otherError => simp only [delete_one, hg]

/-- C3 witness: on a fresh one-record store, an update whose commit fails
with a uniqueness violation is rolled back with the Conflict error, and an
update commit failing otherwise leaves the committed rows unchanged. -/
theorem write_commit_failure_handling_witness :
    ((update "id" ⟨[⟨1, []⟩], [⟨1, []⟩]⟩ 1 [] CommitOutcome.integrityError).1
        = Except.error (RouteError.http raiseIntegrityError) ∧
      DB.session ((update "id" ⟨[⟨1, []⟩], [⟨1, []⟩]⟩ 1 [] CommitOutcome.integrityError).2)
        = DB.committed (⟨[⟨1, []⟩], [⟨1, []⟩]⟩ : DB) ∧
      DB.committed ((update "id" ⟨[⟨1, []⟩], [⟨1, []⟩]⟩ 1 [] CommitOutcome.integrityError).2)
        = DB.committed (⟨[⟨1, []⟩], [⟨1, []⟩]⟩ : DB)) ∧
    (DB.committed ((create ⟨[⟨1, []⟩], [⟨1, []⟩]⟩ ⟨2, []⟩ CommitOutcome.otherError).2)
        = DB.committed (⟨[⟨1, []⟩], [⟨1, []⟩]⟩ : DB) ∧
      DB.committed ((update "id" ⟨[⟨1, []⟩], [⟨1, []⟩]⟩ 1 [] CommitOutcome.otherError).2)
        = DB.committed (⟨[⟨1, []⟩], [⟨1, []⟩]⟩ : DB) ∧
      DB.committed ((delete_one ⟨[⟨1, []⟩], [⟨1, []⟩]⟩ 1 CommitOutcome.otherError).2)
        = DB.committed (⟨[⟨1, []⟩], [⟨1, []⟩]⟩ : DB)) :=
  ⟨(write_commit_failure_handling ⟨[⟨1, []⟩], [⟨1, []⟩]⟩ ⟨2, []⟩ "id" 1 []
        CommitOutcome.otherError).2.1 ⟨1, []⟩ rfl,
    (write_commit_failure_handling ⟨[⟨1, []⟩], [⟨1, []⟩]⟩ ⟨2, []⟩ "id" 1 []
        CommitOutcome.otherError).2.2 (by decide)⟩

/-- C3 counterexample to the claim as stated: a delete-one whose commit
fails (here with a uniqueness violation) surfaces the error with NO
rollback — the session still has the record staged as deleted while the
committed rows do not, so session and committed state disagree. -/
theorem delete_one_no_rollback_counterexample :
    delete_one ⟨[⟨1, []⟩], [⟨1, []⟩]⟩ 1 CommitOutcome.integrityError
      = (Except.error RouteError.storage, ⟨[⟨1, []⟩], []⟩) ∧
    DB.session ((delete_one ⟨[⟨1, []⟩], [⟨1, []⟩]⟩ 1 CommitOutcome.integrityError).2)
      ≠ DB.committed ((delete_one ⟨[⟨1, []⟩], [⟨1, []⟩]⟩ 1 CommitOutcome.integrityError).2) := by
  refine ⟨rfl, ?_⟩
  intro h
  have h2 : ([] : List Record) = [(⟨1, []⟩ : Record)] := h
  exact List.noConfusion h2

/-- C4: a uniqueness violation reported by the store at commit time makes
create and update roll back and fail with the 422 Conflict error carrying
"Key already exists"; because the rollback precedes the error, a state with
a fresh session (`session = committed`) is returned completely unchanged. -/
theorem conflict_rollback (db : DB) (r : Record) (pkName : String) (id : Int)
    (payload : List (String × Value))
    (hfresh : DB.session db = DB.committed db) :
    create db r CommitOutcome.integrityError
      = (Except.error (RouteError.http
          { statusCode := 422, detail := Json.str "Key already exists" }), db) ∧
    (∀ r0, get_one db id = Except.ok r0 →
      update pkName db id payload CommitOutcome.integrityError
        = (Except.error (RouteError.http raiseIntegrityError), db)) ∧
    raiseIntegrityError
      = { statusCode := 422, detail := Json.str "Key already exists" } := by
  obtain ⟨c, s⟩ := db
  simp only [DB.session, DB.committed] at hfresh
  subst hfresh
  refine ⟨rfl, ?_, rfl⟩
  intro r0 h0
  simp only [update, h0]

/-- C4 witness: on a fresh one-record store, a conflicting create and a
conflicting update both roll back to the identical state and fail with the
422 "Key already exists" error. -/
theorem conflict_rollback_witness :
    create ⟨[⟨1, []⟩], [⟨1, []⟩]⟩ ⟨1, []⟩ CommitOutcome.integrityError
      = (Except.error (RouteError.http
          { statusCode := 422, detail := Json.str "Key already exists" }),
        ⟨[⟨1, []⟩], [⟨1, []⟩]⟩) ∧
    (∀ r0, get_one ⟨[⟨1, []⟩], [⟨1, []⟩]⟩ 1 = Except.ok r0 →
      update "id" ⟨[⟨1, []⟩], [⟨1, []⟩]⟩ 1 [] CommitOutcome.integrityError
        = (Except.error (RouteError.http raiseIntegrityError), ⟨[⟨1, []⟩], [⟨1, []⟩]⟩)) ∧
    raiseIntegrityError
      = { statusCode := 422, detail := Json.str "Key already exists" } :=
  conflict_rollback ⟨[⟨1, []⟩], [⟨1, []⟩]⟩ ⟨1, []⟩ "id" 1 [] rfl
